import Mathlib

/-!
Verification of the natural-language specification of the
`beancount-no-bank-norwegian` importers against a shallow embedding of the
repository's Python source.  The embedding covers:

* `deposit_categorizer.py` — `DepositCategorizer.categorize`;
* `beancount_no_sparebank1/deposit.py` — `_parse_amount` and the row loop of
  `DepositAccountImporter.extract` (the legacy CSV importer);
* `src/beancount_no_sparebank1/deposit.py` — `DepositAccountImporter.finalize`
  (the csvbase importer);
* `src/beancount_no_banknorwegian/deposit.py` — `DepositAccountImporter.finalize`;
* `balance.py` — `_extract_end_date`, `_extract_final_balance` and the
  text-to-directive part of `PDFStatementImporter.extract`.

Python strings are modelled as `List Char`, `decimal.Decimal` values as `ℚ`,
`datetime.date` as a year/month/day record, and raised exceptions as
`Except String`.  Regular-expression scanning (`re.finditer`) over the fixed
pattern set of `balance.py` is implemented pattern-by-pattern, anchored at each
text position, exactly mirroring leftmost, non-overlapping matching.
-/

namespace BankNO

/-- Replace a decimal comma with a decimal point; all other characters are kept.
Used to model `str.replace(',', '.')`. -/
def c2d (c : Char) : Char := if c = ',' then '.' else c

/-- Characters matched by the regex class `[\d.,]` in `balance.py`. -/
def isBalChar (c : Char) : Bool := c.isDigit || c == '.' || c == ','

/-- Does `hay` start with `needle`?  Helper for Python's `in` test. -/
def hasPre : List Char → List Char → Bool
  | [], _ => true
  | _ :: _, [] => false
  | n :: ns, h :: hs => n == h && hasPre ns hs

/-- Python's substring test `needle in hay`. -/
def strContains : List Char → List Char → Bool
  | ns, [] => hasPre ns []
  | ns, h :: t => hasPre ns (h :: t) || strContains ns t

/-- Match a literal character sequence at the head, returning the rest. -/
def dropLit : List Char → List Char → Option (List Char)
  | [], cs => some cs
  | _ :: _, [] => none
  | l :: ls, c :: cs => if c = l then dropLit ls cs else none

/-- Python's `str.strip('"')`: remove every leading and trailing `"`. -/
def stripQuotes (cs : List Char) : List Char :=
  ((cs.dropWhile (· == '"')).reverse.dropWhile (· == '"')).reverse

/-- Python's `str.split('.')`. -/
def splitDots : List Char → List (List Char)
  | [] => [[]]
  | c :: cs =>
    let r := splitDots cs
    if c = '.' then [] :: r
    else
      match r with
      | h :: t => (c :: h) :: t
      | [] => [[c]]

/-- Numeric value of a digit string (assuming every character is a digit). -/
def natOfDigits (cs : List Char) : Nat :=
  cs.foldl (fun a c => a * 10 + (c.toNat - 48)) 0

/-- Python's `int(s)` restricted to plain digit strings; `none` models a raised
`ValueError`. -/
def digitsToNat (cs : List Char) : Option Nat :=
  if cs ≠ [] ∧ cs.all Char.isDigit then some (natOfDigits cs) else none

/-- Core of `decimal.Decimal(s)` for an unsigned literal: optional integer
digits, then optionally a point and fraction digits; at least one digit must be
present.  `none` models a raised `InvalidOperation`.  Exponent forms, which
none of these importers produce, are not modelled. -/
def parseCore (cs : List Char) : Option ℚ :=
  let p := cs.span Char.isDigit
  match p.2 with
  | [] => if p.1.isEmpty then none else some (mkRat (natOfDigits p.1) 1)
  | '.' :: fr =>
    if fr.all Char.isDigit && !(p.1.isEmpty && fr.isEmpty) then
      some (mkRat (natOfDigits p.1 * 10 ^ fr.length + natOfDigits fr) (10 ^ fr.length))
    else none
  | _ => none

/-- `decimal.Decimal(s)` with an optional leading sign. -/
def parseSigned (cs : List Char) : Option ℚ :=
  match cs with
  | [] => parseCore []
  | c :: rest =>
    if c = '-' then (parseCore rest).map (fun q => -q)
    else if c = '+' then parseCore rest
    else parseCore (c :: rest)

/-- Modelled from the spec: `beancount.core.number.D` (library code outside
this repository).  `D('')` yields zero; otherwise commas are removed and the
text is parsed as a decimal literal; a malformed literal raises. -/
def pyD (cs : List Char) : Option ℚ :=
  if cs.isEmpty then some 0 else parseSigned (cs.filter (· != ','))

/-- `DepositAccountImporter._parse_amount` from the legacy
`beancount_no_sparebank1/deposit.py`: empty text is zero, otherwise quotes are
stripped, thousands dots removed, the decimal comma converted, and the result
parsed by `D`. -/
def parseAmountOld (s : List Char) : Option ℚ :=
  if s.isEmpty then some 0
  else pyD (((stripQuotes s).filter (· != '.')).map c2d)

/-- The effective amount of the legacy row loop (`deposit.py` lines 176-180):
`inn_decimal if inn_decimal != D("0") else ut_decimal`. -/
def effectiveAmountOld (inn ut : ℚ) : ℚ :=
  if inn ≠ 0 then inn else ut

/-- The `subs` map of the csvbase importers applied to a cell
(`{",": ".", "-": ""}`): decimal commas become points and minus signs are
removed. -/
def applySubs (cs : List Char) : List Char :=
  (cs.map c2d).filter (· != '-')

/-- Modelled from the spec and the in-source column comments:
`beangulp.importers.csvbase.CreditOrDebit` (library code outside this
repository), as configured in `src/beancount_no_sparebank1/deposit.py`
lines 37-44.  Values in the credit column (`Inn`) are kept as-is, values in the
debit column (`Ut`) are negated; `subs` is applied to the cell text first, and
a row with neither column fails to parse. -/
def creditOrDebit (credit debit : List Char) : Option ℚ :=
  if credit ≠ [] then pyD (applySubs credit)
  else if debit ≠ [] then (pyD (applySubs debit)).map (fun q => -q)
  else none

/-- Calendar date, modelling `datetime.date`. -/
structure Date where
  year : Nat
  month : Nat
  day : Nat
deriving DecidableEq

/-- `datetime.date` comparison: lexicographic on (year, month, day). -/
def dateLt (a b : Date) : Prop :=
  a.year < b.year ∨ (a.year = b.year ∧
    (a.month < b.month ∨ (a.month = b.month ∧ a.day < b.day)))

instance instDecDateLt (a b : Date) : Decidable (dateLt a b) := by
  unfold dateLt
  exact inferInstance

/-- Non-strict date comparison. -/
def dateLe (a b : Date) : Prop := dateLt a b ∨ a = b

/-- Gregorian leap-year rule. -/
def isLeap (y : Nat) : Bool :=
  (y % 4 == 0 && y % 100 != 0) || y % 400 == 0

/-- Number of days in a month. -/
def daysInMonth (y m : Nat) : Nat :=
  if m = 2 then (if isLeap y then 29 else 28)
  else if m = 4 ∨ m = 6 ∨ m = 9 ∨ m = 11 then 30
  else 31

/-- Validity check performed by the `datetime.date` constructor. -/
def validDate (y m d : Nat) : Bool :=
  decide (1 ≤ y) && decide (y ≤ 9999) && decide (1 ≤ m) && decide (m ≤ 12) &&
    decide (1 ≤ d) && decide (d ≤ daysInMonth y m)

/-- `date + timedelta(days=1)` for a valid date. -/
def nextDay (d : Date) : Date :=
  if d.day < daysInMonth d.year d.month then ⟨d.year, d.month, d.day + 1⟩
  else if d.month < 12 then ⟨d.year, d.month + 1, 1⟩
  else ⟨d.year + 1, 1, 1⟩

/-- `beancount.core.amount.Amount`: a number with a currency code. -/
structure Amount where
  number : ℚ
  currency : String
deriving DecidableEq

/-- `beancount.core.data.Posting` as used by these importers: an account and
optional units; the cost, price, flag and meta slots are always `None` in this
code and are omitted. -/
structure Posting where
  account : String
  units : Option Amount
deriving DecidableEq

/-- `beancount.core.data.Transaction`.  Metadata keeps insertion order; tags
and links are always empty sets in this code and are kept as lists. -/
structure Transaction where
  meta : List (String × String)
  date : Date
  flag : String
  payee : Option String
  narration : String
  tags : List String
  links : List String
  postings : List Posting
deriving DecidableEq

/-- `beancount.core.data.Balance`. -/
structure BalanceDir where
  meta : List (String × String)
  date : Date
  account : String
  amount : Amount
  tolerance : Option ℚ
  diff_amount : Option Amount
deriving DecidableEq

/-- `DepositCategorizer.categorize` (`deposit_categorizer.py` lines 35-67).
A compiled rule is the matching function of its regular expression together
with the target account; the first rule whose pattern is found in the row's
`Beskrivelse` field appends a posting carrying only the account (its units slot
is `None`), and the loop breaks. -/
def categorize (patterns : List ((String → Bool) × String)) (txn : Transaction)
    (description : String) : Transaction :=
  match patterns.find? (fun pa => pa.1 description) with
  | some pa => { txn with postings := txn.postings ++ [⟨pa.2, none⟩] }
  | none => txn

/-- The balancing-posting construction shared by both `finalize`
implementations: `Amount(-txn.postings[0].units.number, self.currency)`
appended as a new posting.  Accessing `.units.number` of a units-less first
posting raises `AttributeError`, and indexing an empty list raises
`IndexError`. -/
def appendBalancing (txn : Transaction) (acct cur : String) : Except String Transaction :=
  match txn.postings with
  | [] => .error "IndexError"
  | p :: _ =>
    match p.units with
    | none => .error "AttributeError"
    | some u => .ok { txn with postings := txn.postings ++ [⟨acct, some ⟨-u.number, cur⟩⟩] }

/-- Configuration of the csvbase SpareBank 1 importer relevant to `finalize`. -/
structure SB1Cfg where
  currency : String
  narrationRules : List (String × String)
  fromRules : List (String × String)
  toRules : List (String × String)

/-- The row fields read by the SpareBank 1 `finalize`. -/
structure SB1Row where
  fra_konto : String
  til_konto : String

/-- `DepositAccountImporter.finalize` from `src/beancount_no_sparebank1/deposit.py`
lines 160-218: narration patterns first, then `from_account` patterns (only
when the field is non-empty), then `to_account` patterns; the first literal
substring match appends one balancing posting and returns immediately; with no
match the transaction is returned unchanged. -/
def sb1Finalize (cfg : SB1Cfg) (txn : Transaction) (row : SB1Row) : Except String Transaction :=
  if txn.postings.isEmpty then .ok txn
  else
    match cfg.narrationRules.find? (fun pa => strContains pa.1.data txn.narration.data) with
    | some pa => appendBalancing txn pa.2 cfg.currency
    | none =>
      match (if row.fra_konto ≠ "" then
          cfg.fromRules.find? (fun pa => strContains pa.1.data row.fra_konto.data)
        else none) with
      | some pa => appendBalancing txn pa.2 cfg.currency
      | none =>
        match (if row.til_konto ≠ "" then
            cfg.toRules.find? (fun pa => strContains pa.1.data row.til_konto.data)
          else none) with
        | some pa => appendBalancing txn pa.2 cfg.currency
        | none => .ok txn

/-- Configuration of the Bank Norwegian importer relevant to `finalize`. -/
structure BNCfg where
  currency : String
  narrationRules : List (String × String)
  fromRules : List (String × String)

/-- The row field read by the Bank Norwegian `finalize`. -/
structure BNRow where
  type : String

/-- `DepositAccountImporter.finalize` from
`src/beancount_no_banknorwegian/deposit.py` lines 168-239: narration patterns
first; then, for `Innbetaling` rows, the `from_account` patterns (matched
against the narration) with an `Income:Unknown` default; `CreditVoucher` rows
default to `Expenses:Refunds`; every other type, known or not, defaults to
`Expenses:Uncategorized`. -/
def bnFinalize (cfg : BNCfg) (txn : Transaction) (row : BNRow) : Except String Transaction :=
  if txn.postings.isEmpty then .ok txn
  else
    match cfg.narrationRules.find? (fun pa => strContains pa.1.data txn.narration.data) with
    | some pa => appendBalancing txn pa.2 cfg.currency
    | none =>
      if row.type = "Innbetaling" then
        match cfg.fromRules.find? (fun pa => strContains pa.1.data txn.narration.data) with
        | some pa => appendBalancing txn pa.2 cfg.currency
        | none => appendBalancing txn "Income:Unknown" cfg.currency
      else if row.type = "CreditVoucher" then
        appendBalancing txn "Expenses:Refunds" cfg.currency
      else
        appendBalancing txn "Expenses:Uncategorized" cfg.currency

/-- `datetime.datetime.strptime(s, "%d.%m.%Y").date()`: day and month of one
or two digits, a four-or-fewer-digit year, dots in between, nothing else, and
the result must be a constructible date.  `none` models a raised `ValueError`. -/
def parseDateOld (cs : List Char) : Option Date :=
  match splitDots cs with
  | [d, m, y] =>
    if d ≠ [] ∧ d.length ≤ 2 ∧ d.all Char.isDigit ∧
        m ≠ [] ∧ m.length ≤ 2 ∧ m.all Char.isDigit ∧
        y ≠ [] ∧ y.length ≤ 4 ∧ y.all Char.isDigit then
      let dn := natOfDigits d
      let mn := natOfDigits m
      let yn := natOfDigits y
      if validDate yn mn dn then some ⟨yn, mn, dn⟩ else none
    else none
  | _ => none

/-- Configuration of the legacy SpareBank 1 CSV importer. -/
structure OldCfg where
  accountName : String
  currency : String
  flag : String
  rules : Option (List ((String → Bool) × String))

/-- One iteration of the row loop of the legacy
`DepositAccountImporter.extract` (`beancount_no_sparebank1/deposit.py`
lines 160-221), for a row already known to be non-empty: unpack exactly eight
cells, parse the date and the two amount columns (any failure raises), build
the transaction with its metadata, and apply the categorizer when configured. -/
def buildTxnOld (cfg : OldCfg) (filepath : String) (index : Nat) (cells : List String) :
    Except String Transaction :=
  match cells with
  | [dateS, descS, renteS, innS, utS, tilS, fraS, _] =>
    match parseDateOld (stripQuotes dateS.data) with
    | none => .error "ValueError: strptime"
    | some date =>
      match parseAmountOld innS.data, parseAmountOld utS.data with
      | some inn, some ut =>
        let narration := (stripQuotes descS.data).asString
        let meta0 := [("filename", filepath), ("lineno", Nat.repr index)]
        let meta1 := if tilS ≠ "" then meta0 ++ [("to_account", (stripQuotes tilS.data).asString)] else meta0
        let meta2 := if fraS ≠ "" then meta1 ++ [("from_account", (stripQuotes fraS.data).asString)] else meta1
        let meta3 := if renteS ≠ "" then meta2 ++ [("rentedato", (stripQuotes renteS.data).asString)] else meta2
        let amt := effectiveAmountOld inn ut
        let txn : Transaction :=
          ⟨meta3, date, cfg.flag, none, narration, [], [],
            [⟨cfg.accountName, some ⟨amt, cfg.currency⟩⟩]⟩
        match cfg.rules with
        | some pats => .ok (categorize pats txn descS)
        | none => .ok txn
      | _, _ => .error "decimal.InvalidOperation"
  | _ => .error "ValueError: unpack"

/-- The row loop of the legacy `DepositAccountImporter.extract`
(`beancount_no_sparebank1/deposit.py` lines 160-221): rows are numbered from
the given index; a row that is empty or has an empty first cell is skipped;
any error raised while processing a row propagates, aborting the whole
extraction. -/
def extractRows (cfg : OldCfg) (filepath : String) : Nat → List (List String) → Except String (List Transaction)
  | _, [] => .ok []
  | i, row :: rest =>
    match row with
    | [] => extractRows cfg filepath (i + 1) rest
    | c :: _ =>
      if c = "" then extractRows cfg filepath (i + 1) rest
      else
        match buildTxnOld cfg filepath i row with
        | .error e => .error e
        | .ok txn => (extractRows cfg filepath (i + 1) rest).map (fun l => txn :: l)

/-- `DepositAccountImporter.extract` of the legacy importer, from the parsed
CSV rows (the file I/O and CSV splitting are out of scope): rows are
enumerated from 1. -/
def extractOld (cfg : OldCfg) (filepath : String) (rows : List (List String)) :
    Except String (List Transaction) :=
  extractRows cfg filepath 1 rows

/-- Greedy `\s+`: require at least one whitespace character, return the rest. -/
def ws1 (cs : List Char) : Option (List Char) :=
  let p := cs.span Char.isWhitespace
  if p.1.isEmpty then none else some p.2

/-- Greedy `\s*`. -/
def wsStar (cs : List Char) : List Char :=
  (cs.span Char.isWhitespace).2

/-- `\d{n}`: exactly `n` digits. -/
def digitsN : Nat → List Char → Option (List Char × List Char)
  | 0, cs => some ([], cs)
  | _ + 1, [] => none
  | n + 1, c :: cs =>
    if c.isDigit then (digitsN n cs).map (fun p => (c :: p.1, p.2)) else none

/-- Greedy `([\d.,]+)`: a non-empty run of digits, dots and commas. -/
def balRun (cs : List Char) : Option (List Char × List Char) :=
  let p := cs.span isBalChar
  if p.1.isEmpty then none else some (p.1, p.2)

/-- Anchored match of `r'SaldoiDeresfavør\s*([\d.,]+)'`, returning the capture
and the rest of the text. -/
def tryBal1 (cs : List Char) : Option (List Char × List Char) := do
  let r ← dropLit "SaldoiDeresfavør".data cs
  balRun (wsStar r)

/-- Anchored match of `r'Saldo\s+i\s+Deres\s+favør\s*([\d.,]+)'`. -/
def tryBal2 (cs : List Char) : Option (List Char × List Char) := do
  let r ← dropLit "Saldo".data cs
  let r ← ws1 r
  let r ← dropLit "i".data r
  let r ← ws1 r
  let r ← dropLit "Deres".data r
  let r ← ws1 r
  let r ← dropLit "favør".data r
  balRun (wsStar r)

/-- The lazy tail of `r'Saldo.*?(\d[\d.,]+)'`: expand `.*?` one character at a
time (never across a newline, which `.` does not match) until a digit followed
by at least one further `[\d.,]` character can be captured. -/
def lazyCap : List Char → Option (List Char × List Char)
  | [] => none
  | c :: rest =>
    let p := rest.span isBalChar
    if c.isDigit && !p.1.isEmpty then some (c :: p.1, p.2)
    else if c = '\n' then none
    else lazyCap rest

/-- Anchored match of `r'Saldo.*?(\d[\d.,]+)'`. -/
def tryBal3 (cs : List Char) : Option (List Char × List Char) := do
  let r ← dropLit "Saldo".data cs
  lazyCap r

/-- Anchored match of `r'Saldo\s+kr\s*([\d.,]+)'`. -/
def tryBal4 (cs : List Char) : Option (List Char × List Char) := do
  let r ← dropLit "Saldo".data cs
  let r ← ws1 r
  let r ← dropLit "kr".data r
  balRun (wsStar r)

/-- The date shape `\d{2}\.\d{2}\.\d{4}` of the period pattern, returning the
matched text and the rest. -/
def dateShape (cs : List Char) : Option (List Char × List Char) :=
  match digitsN 2 cs with
  | none => none
  | some (a, r1) =>
    match dropLit ['.'] r1 with
    | none => none
    | some r2 =>
      match digitsN 2 r2 with
      | none => none
      | some (b, r3) =>
        match dropLit ['.'] r3 with
        | none => none
        | some r4 =>
          match digitsN 4 r4 with
          | none => none
          | some (c, r5) => some (a ++ '.' :: b ++ '.' :: c, r5)

/-- Anchored match of
`r'perioden\s+\d{2}\.\d{2}\.\d{4}\s+-\s+(\d{2}\.\d{2}\.\d{4})'`, capturing the
second (end) date text. -/
def tryPeriod (cs : List Char) : Option (List Char × List Char) := do
  let r ← dropLit "perioden".data cs
  let r ← ws1 r
  let (_, r) ← dateShape r
  let r ← ws1 r
  let r ← dropLit ['-'] r
  let r ← ws1 r
  dateShape r

/-- `re.finditer` driver: scan left to right; at each position try the anchored
matcher; on a match emit the capture with the match position and continue after
the matched text (non-overlapping); otherwise advance one character.  The fuel
argument bounds the number of steps; every matcher used here consumes at least
one character per match, so `length + 1` fuel scans the whole text. -/
def scanAll (t : List Char → Option (List Char × List Char)) :
    Nat → Nat → List Char → List (Nat × List Char)
  | 0, _, _ => []
  | fuel + 1, pos, cs =>
    match t cs with
    | some (cap, rest) => (pos, cap) :: scanAll t fuel (pos + (cs.length - rest.length)) rest
    | none =>
      match cs with
      | [] => []
      | _ :: tail => scanAll t fuel (pos + 1) tail

/-- All matches of an anchored matcher over a text, leftmost first, with match
positions. -/
def finditer (t : List Char → Option (List Char × List Char)) (cs : List Char) :
    List (Nat × List Char) :=
  scanAll t (cs.length + 1) 0 cs

/-- The balance-text normalisation of `_extract_final_balance`:
`match.group(1).replace('.', '').replace(',', '.')`. -/
def normalizeBal (cap : List Char) : List Char :=
  (cap.filter (· != '.')).map c2d

/-- The four balance patterns of `_extract_final_balance`
(`balance.py` lines 236-241), in source order. -/
def balancePatterns : List (List Char → Option (List Char × List Char)) :=
  [tryBal1, tryBal2, tryBal3, tryBal4]

/-- The `all_balances` list of `_extract_final_balance` grouped per pattern:
for each pattern in source order, its normalised matches in document order. -/
def balanceMatchLists (text : List Char) : List (List (List Char)) :=
  balancePatterns.map (fun t => (finditer t text).map (fun pc => normalizeBal pc.2))

/-- `PDFStatementImporter._extract_final_balance` (`balance.py` lines 225-257):
collect the normalised matches of every pattern, pattern by pattern, and return
the last element of the combined list, or `None` when there is none. -/
def extractFinalBalance (text : List Char) : Option (List Char) :=
  (balanceMatchLists text).flatten.getLast?

/-- From the spec's words (for comparison with `extractFinalBalance`): among
all matches of all balance labels, the last occurrence in document order —
the match with the greatest position in the text, later labels winning ties. -/
def specFinalBalanceDocOrder (text : List Char) : Option (List Char) :=
  let all := (balancePatterns.map (fun t => finditer t text)).flatten
  (all.foldl (fun best pc =>
    match best with
    | none => some pc
    | some b => if b.1 ≤ pc.1 then some pc else best) none).map (fun pc => normalizeBal pc.2)

/-- `int`-and-`datetime.date` conversion of one period capture
(`balance.py` lines 212-216): `day, month, year = map(int, date_str.split('.'))`
then `datetime.date(year, month, day)`; any failure is caught and the match is
skipped. -/
def parsePeriodDate (cap : List Char) : Option Date :=
  match splitDots cap with
  | [d, m, y] => do
    let dn ← digitsToNat d
    let mn ← digitsToNat m
    let yn ← digitsToNat y
    if validDate yn mn dn then some ⟨yn, mn, dn⟩ else none
  | _ => none

/-- The `latest_date` update of `_extract_end_date`:
`if latest_date is None or current_date > latest_date`. -/
def pickLatest (acc : Option Date) (d : Date) : Option Date :=
  match acc with
  | none => some d
  | some l => if dateLt l d then some d else some l

/-- One iteration of the `_extract_end_date` loop: parse the capture; on
failure keep the accumulator (the exception is caught and logged), otherwise
keep the later date. -/
def endDateStep (latest : Option Date) (pc : Nat × List Char) : Option Date :=
  match parsePeriodDate pc.2 with
  | none => latest
  | some d => pickLatest latest d

/-- `PDFStatementImporter._extract_end_date` (`balance.py` lines 196-223):
fold over every period match, keeping the latest successfully parsed end
date. -/
def extractEndDate (text : List Char) : Option Date :=
  (finditer tryPeriod text).foldl endDateStep none

/-- The successfully parsed end dates of all period matches, in document
order. -/
def endDates (text : List Char) : List Date :=
  (finditer tryPeriod text).filterMap (fun pc => parsePeriodDate pc.2)

/-- Configuration of the PDF statement importer relevant to `extract`. -/
structure BalCfg where
  accountName : String
  currency : String

/-- The text-to-directives part of `PDFStatementImporter.extract`
(`balance.py` lines 121-177) with no existing entries: extract the end date and
the final balance; when both are truthy, build exactly one `Balance` directive
dated the day after the end date with a null tolerance; parsing the balance
text through `D` may raise, which the surrounding handler turns into the empty
list. -/
def balanceFromText (cfg : BalCfg) (filepath : String) (text : List Char) :
    List BalanceDir :=
  match extractEndDate text, extractFinalBalance text with
  | some d, some b =>
    if b ≠ [] then
      match pyD b with
      | some q =>
        [⟨[("filename", filepath), ("lineno", "1")], nextDay d, cfg.accountName,
          ⟨q, cfg.currency⟩, none, none⟩]
      | none => []
    else []
  | _, _ => []

/-- The duplicate flag set by the deduplication pass:
`meta['__duplicate__'] = True`. -/
def setDuplicateFlag (t : Transaction) : Transaction :=
  { t with meta := t.meta ++ [("__duplicate__", "True")] }

/-- Modelled from the spec: `beangulp.extract.mark_duplicate_entries` (library
code outside this repository), as called by both `deduplicate` methods.  Each
new entry that has a window-and-comparator match among the existing entries is
marked with a duplicate metadata flag; no entry is removed or reordered.  The
window test and the heuristic comparator are parameters. -/
def markDuplicateEntries (entries existing : List Transaction)
    (withinWindow : Transaction → Transaction → Bool)
    (comparator : Transaction → Transaction → Bool) : List Transaction :=
  entries.map (fun e =>
    if existing.any (fun x => withinWindow e x && comparator e x) then setDuplicateFlag e
    else e)

theorem dateLe_refl (a : Date) : dateLe a a := Or.inr rfl

theorem dateLt_imp_le {a b : Date} (h : dateLt a b) : dateLe a b := Or.inl h

theorem not_dateLt_imp_le {a b : Date} (h : ¬ dateLt a b) : dateLe b a := by
  obtain ⟨a1, a2, a3⟩ := a
  obtain ⟨b1, b2, b3⟩ := b
  simp only [dateLt, dateLe, Date.mk.injEq, not_or, not_and, not_lt] at h ⊢
  omega

theorem dateLe_trans {a b c : Date} (h1 : dateLe a b) (h2 : dateLe b c) : dateLe a c := by
  obtain ⟨a1, a2, a3⟩ := a
  obtain ⟨b1, b2, b3⟩ := b
  obtain ⟨c1, c2, c3⟩ := c
  simp only [dateLt, dateLe, Date.mk.injEq] at h1 h2 ⊢
  omega

theorem pickLatest_spec (acc : Option Date) (d : Date) :
    ∃ v, pickLatest acc d = some v ∧ dateLe d v ∧ (∀ a, acc = some a → dateLe a v) := by
  cases acc with
  | none =>
    refine ⟨d, rfl, dateLe_refl d, ?_⟩
    intro a h
    cases h
  | some l =>
    by_cases hlt : dateLt l d
    · refine ⟨d, by simp [pickLatest, hlt], dateLe_refl d, ?_⟩
      intro a ha
      injection ha with ha
      subst ha
      exact dateLt_imp_le hlt
    · refine ⟨l, by simp [pickLatest, hlt], not_dateLt_imp_le hlt, ?_⟩
      intro a ha
      injection ha with ha
      subst ha
      exact dateLe_refl l

theorem foldl_pickLatest_spec :
    ∀ (ds : List Date) (acc : Option Date) (m : Date),
      ds.foldl pickLatest acc = some m →
      (m ∈ ds ∨ acc = some m) ∧ (∀ d ∈ ds, dateLe d m) ∧ (∀ a, acc = some a → dateLe a m) := by
  intro ds
  induction ds with
  | nil =>
    intro acc m h
    simp only [List.foldl_nil] at h
    refine ⟨Or.inr h, by simp, ?_⟩
    intro a ha
    rw [ha] at h
    injection h with h
    subst h
    exact dateLe_refl a
  | cons d ds ih =>
    intro acc m h
    rw [List.foldl_cons] at h
    obtain ⟨h1, h2, h3⟩ := ih (pickLatest acc d) m h
    obtain ⟨v, hv, hdv, hav⟩ := pickLatest_spec acc d
    have hvm : dateLe v m := h3 v hv
    refine ⟨?_, ?_, ?_⟩
    · rcases h1 with hm | hacc
      · exact Or.inl (List.mem_cons_of_mem _ hm)
      · cases acc with
        | none =>
          simp only [pickLatest] at hacc
          injection hacc with hacc
          exact Or.inl (by rw [← hacc]; exact List.mem_cons_self _ _)
        | some l =>
          by_cases hlt : dateLt l d
          · simp only [pickLatest, if_pos hlt] at hacc
            injection hacc with hacc
            exact Or.inl (by rw [← hacc]; exact List.mem_cons_self _ _)
          · simp only [pickLatest, if_neg hlt] at hacc
            injection hacc with hacc
            exact Or.inr (by rw [hacc])
    · intro x hx
      rcases List.mem_cons.mp hx with rfl | hx'
      · exact dateLe_trans hdv hvm
      · exact h2 x hx'
    · intro a ha
      exact dateLe_trans (hav a ha) hvm

theorem foldl_endDateStep (l : List (Nat × List Char)) :
    ∀ acc : Option Date,
      l.foldl endDateStep acc
        = (l.filterMap (fun pc => parsePeriodDate pc.2)).foldl pickLatest acc := by
  induction l with
  | nil => intro acc; rfl
  | cons x l ih =>
    intro acc
    rw [List.foldl_cons, List.filterMap_cons]
    cases hf : parsePeriodDate x.2 with
    | none => simp only [endDateStep, hf]; exact ih acc
    | some d => simp only [endDateStep, hf, List.foldl_cons]; exact ih (pickLatest acc d)

theorem flatten_getLast? {α : Type} (ls : List (List α)) :
    ls.flatten.getLast? = ((ls.filter (fun l => !l.isEmpty)).getLast?).bind List.getLast? := by
  induction ls with
  | nil => rfl
  | cons l ls ih =>
    by_cases hj : ls.flatten = []
    · have hall : ∀ x ∈ ls, x = [] := List.flatten_eq_nil_iff.mp hj
      have hfilt : ls.filter (fun l => !l.isEmpty) = [] := by
        rw [List.filter_eq_nil_iff]
        intro a ha
        simp [hall a ha]
      rw [List.flatten_cons, hj, List.append_nil, List.filter_cons]
      by_cases hl : l = []
      · subst hl
        simp [hfilt]
      · simp [hl, hfilt, List.isEmpty_iff]
    · have hfl : ls.filter (fun l => !l.isEmpty) ≠ [] := by
        intro hc
        apply hj
        rw [List.flatten_eq_nil_iff]
        intro x hx
        by_contra hne
        have hmem : x ∈ ls.filter (fun l => !l.isEmpty) := by
          rw [List.mem_filter]
          exact ⟨hx, by simp [List.isEmpty_iff, hne]⟩
        rw [hc] at hmem
        cases hmem
      rw [List.flatten_cons, List.getLast?_append_of_ne_nil _ hj, ih, List.filter_cons]
      by_cases hl : l.isEmpty
      · simp [hl]
      · simp only [hl]
        obtain ⟨a, t, ht⟩ := List.exists_cons_of_ne_nil hfl
        rw [ht]
        simp [List.getLast?_cons_cons]

theorem extractEndDate_eq_fold (text : List Char) :
    extractEndDate text = (endDates text).foldl pickLatest none := by
  unfold extractEndDate endDates
  exact foldl_endDateStep (finditer tryPeriod text) none

theorem appendBalancing_frame {txn : Transaction} {a c : String} {t' : Transaction}
    (h : appendBalancing txn a c = .ok t') :
    t'.meta = txn.meta ∧ t'.date = txn.date ∧ t'.flag = txn.flag ∧ t'.payee = txn.payee ∧
      t'.narration = txn.narration ∧ t'.tags = txn.tags ∧ t'.links = txn.links := by
  unfold appendBalancing at h
  rcases hp : txn.postings with _ | ⟨p, ps⟩
  · rw [hp] at h
    simp at h
  · rw [hp] at h
    dsimp only at h
    rcases hu : p.units with _ | u
    · rw [hu] at h
      simp at h
    · rw [hu] at h
      injection h with h
      subst h
      exact ⟨rfl, rfl, rfl, rfl, rfl, rfl, rfl⟩

theorem categorize_no_match (pats : List ((String → Bool) × String)) (txn : Transaction)
    (desc : String) (h : ∀ pa ∈ pats, pa.1 desc = false) :
    categorize pats txn desc = txn := by
  unfold categorize
  rw [List.find?_eq_none.mpr]
  intro pa hpa
  simp [h pa hpa]

theorem sb1Finalize_no_match (cfg : SB1Cfg) (txn : Transaction) (row : SB1Row)
    (h1 : ∀ pa ∈ cfg.narrationRules, strContains pa.1.data txn.narration.data = false)
    (h2 : ∀ pa ∈ cfg.fromRules, strContains pa.1.data row.fra_konto.data = false)
    (h3 : ∀ pa ∈ cfg.toRules, strContains pa.1.data row.til_konto.data = false) :
    sb1Finalize cfg txn row = .ok txn := by
  unfold sb1Finalize
  have f1 : cfg.narrationRules.find? (fun pa => strContains pa.1.data txn.narration.data) = none := by
    rw [List.find?_eq_none]
    intro pa hpa
    simp [h1 pa hpa]
  have f2 : cfg.fromRules.find? (fun pa => strContains pa.1.data row.fra_konto.data) = none := by
    rw [List.find?_eq_none]
    intro pa hpa
    simp [h2 pa hpa]
  have f3 : cfg.toRules.find? (fun pa => strContains pa.1.data row.til_konto.data) = none := by
    rw [List.find?_eq_none]
    intro pa hpa
    simp [h3 pa hpa]
  by_cases he : txn.postings.isEmpty
  · simp [he]
  · simp only [he, f1, Bool.false_eq_true, if_false]
    by_cases hf : row.fra_konto ≠ "" <;> by_cases ht : row.til_konto ≠ "" <;>
      simp [hf, ht, f2, f3]

/-- Claim C7 (confirmed): for every document text, whenever
`_extract_end_date` returns a date, that date is one of the successfully
parsed period end dates and is greater than or equal to every other parsed end
date — the maximum, independent of the order of the markers in the text. -/
theorem c7_end_date_is_max (text : List Char) (m : Date)
    (h : extractEndDate text = some m) :
    m ∈ endDates text ∧ ∀ d ∈ endDates text, dateLe d m := by
  rw [extractEndDate_eq_fold] at h
  obtain ⟨h1, h2, _⟩ := foldl_pickLatest_spec (endDates text) none m h
  rcases h1 with h1 | h1
  · exact ⟨h1, h2⟩
  · cases h1

/-- Witness for C7: a text repeating the period header with the later end date
first; the extractor returns 2024-02-28, the maximum. -/
theorem c7_witness :
    (⟨2024, 2, 28⟩ : Date) ∈
        endDates "perioden 01.02.2024 - 28.02.2024\nperioden 01.01.2024 - 15.01.2024".data ∧
      ∀ d ∈ endDates "perioden 01.02.2024 - 28.02.2024\nperioden 01.01.2024 - 15.01.2024".data,
        dateLe d ⟨2024, 2, 28⟩ :=
  c7_end_date_is_max _ _ rfl

/-- Claim C2 counterexample: in the text `"Saldo kr 55\nSaldoiDeresfavør 77"`
the last balance occurrence in document order is the `77` of the
`SaldoiDeresfavør` label, but `_extract_final_balance` returns `"55"`, the
last match of the last pattern in its fixed pattern list that matched at all
(`r'Saldo\s+kr\s*([\d.,]+)'`). -/
theorem c2_counterexample :
    extractFinalBalance "Saldo kr 55\nSaldoiDeresfavør 77".data = some "55".data ∧
    specFinalBalanceDocOrder "Saldo kr 55\nSaldoiDeresfavør 77".data = some "77".data ∧
    some "55".data ≠ some "77".data :=
  ⟨rfl, rfl, by decide⟩

/-- Claim C2 (corrected): `_extract_final_balance` collects matches grouped by
pattern — all matches of the first label spelling, then all matches of the
second, and so on — and returns the last element of that concatenation.  This
is the last match, in document order, of the last pattern in the fixed pattern
list that has any match; it is the last occurrence in document order among all
labels only when a single pattern produces all the matches. -/
theorem c2_last_of_last_matching_pattern (text : List Char) :
    extractFinalBalance text =
      (((balanceMatchLists text).filter (fun l => !l.isEmpty)).getLast?).bind List.getLast? := by
  unfold extractFinalBalance
  exact flatten_getLast? _

/-- Claim C9 (confirmed, spec-modelled): the deduplication pass maps each new
entry either to itself or to itself with the duplicate metadata flag appended;
the list length and order are preserved, no entry is removed, and the flagging
changes no field other than the metadata. -/
theorem c9_dedup_preserves_entries (entries existing : List Transaction)
    (withinWindow comparator : Transaction → Transaction → Bool) :
    (markDuplicateEntries entries existing withinWindow comparator).length = entries.length ∧
    (∀ i : Nat,
      (markDuplicateEntries entries existing withinWindow comparator)[i]? = entries[i]? ∨
      (markDuplicateEntries entries existing withinWindow comparator)[i]?
        = entries[i]?.map setDuplicateFlag) ∧
    (∀ t : Transaction, (setDuplicateFlag t).date = t.date ∧ (setDuplicateFlag t).flag = t.flag ∧
      (setDuplicateFlag t).payee = t.payee ∧ (setDuplicateFlag t).narration = t.narration ∧
      (setDuplicateFlag t).tags = t.tags ∧ (setDuplicateFlag t).links = t.links ∧
      (setDuplicateFlag t).postings = t.postings) := by
  refine ⟨by simp [markDuplicateEntries], ?_, ?_⟩
  · intro i
    unfold markDuplicateEntries
    rw [List.getElem?_map]
    cases entries[i]? with
    | none => left; rfl
    | some e =>
      simp only [Option.map_some']
      by_cases hc : existing.any (fun x => withinWindow e x && comparator e x) = true
      · right
        rw [if_pos hc]
      · left
        rw [if_neg hc]
  · intro t
    exact ⟨rfl, rfl, rfl, rfl, rfl, rfl, rfl⟩

/-- Claim C10 (confirmed): all three categorization operations leave every
field of the transaction other than its postings list unchanged — the same
meta, date, flag, payee, narration, tags and links. -/
theorem c10_frame :
    (∀ (pats : List ((String → Bool) × String)) (txn : Transaction) (desc : String),
      (categorize pats txn desc).meta = txn.meta ∧ (categorize pats txn desc).date = txn.date ∧
      (categorize pats txn desc).flag = txn.flag ∧ (categorize pats txn desc).payee = txn.payee ∧
      (categorize pats txn desc).narration = txn.narration ∧
      (categorize pats txn desc).tags = txn.tags ∧ (categorize pats txn desc).links = txn.links) ∧
    (∀ (cfg : SB1Cfg) (txn : Transaction) (row : SB1Row) (t' : Transaction),
      sb1Finalize cfg txn row = .ok t' →
      t'.meta = txn.meta ∧ t'.date = txn.date ∧ t'.flag = txn.flag ∧ t'.payee = txn.payee ∧
        t'.narration = txn.narration ∧ t'.tags = txn.tags ∧ t'.links = txn.links) ∧
    (∀ (cfg : BNCfg) (txn : Transaction) (row : BNRow) (t' : Transaction),
      bnFinalize cfg txn row = .ok t' →
      t'.meta = txn.meta ∧ t'.date = txn.date ∧ t'.flag = txn.flag ∧ t'.payee = txn.payee ∧
        t'.narration = txn.narration ∧ t'.tags = txn.tags ∧ t'.links = txn.links) := by
  refine ⟨?_, ?_, ?_⟩
  · intro pats txn desc
    unfold categorize
    cases pats.find? (fun pa => pa.1 desc) with
    | none => exact ⟨rfl, rfl, rfl, rfl, rfl, rfl, rfl⟩
    | some pa => exact ⟨rfl, rfl, rfl, rfl, rfl, rfl, rfl⟩
  · intro cfg txn row t' h
    unfold sb1Finalize at h
    split at h
    · injection h with h
      subst h
      exact ⟨rfl, rfl, rfl, rfl, rfl, rfl, rfl⟩
    · split at h
      · exact appendBalancing_frame h
      · split at h
        · exact appendBalancing_frame h
        · split at h
          · exact appendBalancing_frame h
          · injection h with h
            subst h
            exact ⟨rfl, rfl, rfl, rfl, rfl, rfl, rfl⟩
  · intro cfg txn row t' h
    unfold bnFinalize at h
    split at h
    · injection h with h
      subst h
      exact ⟨rfl, rfl, rfl, rfl, rfl, rfl, rfl⟩
    · split at h
      · exact appendBalancing_frame h
      · split at h
        · split at h
          · exact appendBalancing_frame h
          · exact appendBalancing_frame h
        · split at h
          · exact appendBalancing_frame h
          · exact appendBalancing_frame h

/-- Witness for C10: the SpareBank 1 `finalize` clause applied to a concrete
matching transaction; the appended balancing posting changes only the postings
list. -/
theorem c10_witness :
    (⟨[("lineno", "2")], ⟨2024, 1, 1⟩, "*", none, "KIWI OSLO", [], [],
        [⟨"Assets:Bank", some ⟨100, "NOK"⟩⟩,
         ⟨"Expenses:Groceries", some ⟨-100, "NOK"⟩⟩]⟩ : Transaction).meta
        = ([("lineno", "2")] : List (String × String)) ∧
      (⟨[("lineno", "2")], ⟨2024, 1, 1⟩, "*", none, "KIWI OSLO", [], [],
        [⟨"Assets:Bank", some ⟨100, "NOK"⟩⟩,
         ⟨"Expenses:Groceries", some ⟨-100, "NOK"⟩⟩]⟩ : Transaction).date = ⟨2024, 1, 1⟩ ∧
      (⟨[("lineno", "2")], ⟨2024, 1, 1⟩, "*", none, "KIWI OSLO", [], [],
        [⟨"Assets:Bank", some ⟨100, "NOK"⟩⟩,
         ⟨"Expenses:Groceries", some ⟨-100, "NOK"⟩⟩]⟩ : Transaction).flag = "*" ∧
      (⟨[("lineno", "2")], ⟨2024, 1, 1⟩, "*", none, "KIWI OSLO", [], [],
        [⟨"Assets:Bank", some ⟨100, "NOK"⟩⟩,
         ⟨"Expenses:Groceries", some ⟨-100, "NOK"⟩⟩]⟩ : Transaction).payee = none ∧
      (⟨[("lineno", "2")], ⟨2024, 1, 1⟩, "*", none, "KIWI OSLO", [], [],
        [⟨"Assets:Bank", some ⟨100, "NOK"⟩⟩,
         ⟨"Expenses:Groceries", some ⟨-100, "NOK"⟩⟩]⟩ : Transaction).narration = "KIWI OSLO" ∧
      (⟨[("lineno", "2")], ⟨2024, 1, 1⟩, "*", none, "KIWI OSLO", [], [],
        [⟨"Assets:Bank", some ⟨100, "NOK"⟩⟩,
         ⟨"Expenses:Groceries", some ⟨-100, "NOK"⟩⟩]⟩ : Transaction).tags = [] ∧
      (⟨[("lineno", "2")], ⟨2024, 1, 1⟩, "*", none, "KIWI OSLO", [], [],
        [⟨"Assets:Bank", some ⟨100, "NOK"⟩⟩,
         ⟨"Expenses:Groceries", some ⟨-100, "NOK"⟩⟩]⟩ : Transaction).links = [] :=
  c10_frame.2.1 ⟨"NOK", [("KIWI", "Expenses:Groceries")], [], []⟩
    ⟨[("lineno", "2")], ⟨2024, 1, 1⟩, "*", none, "KIWI OSLO", [], [],
      [⟨"Assets:Bank", some ⟨100, "NOK"⟩⟩]⟩ ⟨"", ""⟩ _ rfl

/-- Claim C1 counterexample: on the spec's own KIWI example,
`DepositCategorizer.categorize` appends a posting whose units slot is `None`
(`data.Posting(account, None, ...)`), not the sign inversion `-100 NOK` of the
first posting's amount. -/
theorem c1_counterexample :
    (categorize [(fun s => strContains "KIWI".data s.data, "Expenses:Groceries")]
        ⟨[], ⟨2024, 1, 1⟩, "*", none, "KIWI OSLO", [], [],
          [⟨"Assets:Bank", some ⟨100, "NOK"⟩⟩]⟩ "KIWI OSLO").postings =
      [⟨"Assets:Bank", some ⟨100, "NOK"⟩⟩, ⟨"Expenses:Groceries", none⟩] ∧
    (none : Option Amount) ≠ some ⟨-(100 : ℚ), "NOK"⟩ :=
  ⟨rfl, by decide⟩

/-- Claim C1 (corrected): on the first matching rule, the csvbase `finalize`
appends exactly one balancing posting carrying the rule's target account and
the sign inversion of the first posting's amount in the importer's configured
currency, and returns immediately — the result does not depend on the later
rules of the tier nor on the from/to tiers; `DepositCategorizer.categorize`
also appends exactly one posting with the target account on first match, but
that posting carries no amount at all (its units slot is `None`). -/
theorem c1_first_match_appends_balancing (cur : String)
    (fromR toR : List (String × String)) (p a : String) (rest : List (String × String))
    (txn : Transaction) (row : SB1Row) (pp : Posting) (ps : List Posting) (u : Amount)
    (hp : txn.postings = pp :: ps) (hu : pp.units = some u)
    (hm : strContains p.data txn.narration.data = true) :
    sb1Finalize ⟨cur, (p, a) :: rest, fromR, toR⟩ txn row =
      .ok { txn with postings := txn.postings ++ [⟨a, some ⟨-u.number, cur⟩⟩] } ∧
    ∀ (m : String → Bool) (acct : String) (prest : List ((String → Bool) × String))
      (desc : String), m desc = true →
      categorize ((m, acct) :: prest) txn desc
        = { txn with postings := txn.postings ++ [⟨acct, none⟩] } := by
  constructor
  · have hne : txn.postings.isEmpty = false := by rw [hp]; rfl
    unfold sb1Finalize
    rw [List.find?_cons_of_pos _ (by exact hm)]
    simp only [hne, Bool.false_eq_true, if_false]
    unfold appendBalancing
    rw [hp]
    dsimp only
    rw [hu, ← hp]
  · intro m acct prest desc hmd
    unfold categorize
    rw [List.find?_cons_of_pos _ (by exact hmd)]

/-- Witness for C1: the KIWI rule fires on a concrete transaction; `finalize`
appends the sign-inverted balancing posting, `categorize` the account-only
posting. -/
theorem c1_witness :
    sb1Finalize ⟨"NOK", [("KIWI", "Expenses:Groceries")], [("F", "A1")], [("T", "A2")]⟩
        ⟨[], ⟨2024, 1, 1⟩, "*", none, "KIWI OSLO", [], [],
          [⟨"Assets:Bank", some ⟨100, "NOK"⟩⟩]⟩ ⟨"", ""⟩ =
      .ok ⟨[], ⟨2024, 1, 1⟩, "*", none, "KIWI OSLO", [], [],
        [⟨"Assets:Bank", some ⟨100, "NOK"⟩⟩,
         ⟨"Expenses:Groceries", some ⟨-100, "NOK"⟩⟩]⟩ ∧
    categorize [(fun s => strContains "KIWI".data s.data, "Expenses:Groceries")]
        ⟨[], ⟨2024, 1, 1⟩, "*", none, "KIWI OSLO", [], [],
          [⟨"Assets:Bank", some ⟨100, "NOK"⟩⟩]⟩ "KIWI OSLO" =
      ⟨[], ⟨2024, 1, 1⟩, "*", none, "KIWI OSLO", [], [],
        [⟨"Assets:Bank", some ⟨100, "NOK"⟩⟩, ⟨"Expenses:Groceries", none⟩]⟩ := by
  have h := c1_first_match_appends_balancing "NOK" [("F", "A1")] [("T", "A2")]
    "KIWI" "Expenses:Groceries" []
    ⟨[], ⟨2024, 1, 1⟩, "*", none, "KIWI OSLO", [], [],
      [⟨"Assets:Bank", some ⟨100, "NOK"⟩⟩]⟩ ⟨"", ""⟩
    ⟨"Assets:Bank", some ⟨100, "NOK"⟩⟩ [] ⟨100, "NOK"⟩ rfl rfl rfl
  exact ⟨h.1, h.2 (fun s => strContains "KIWI".data s.data) "Expenses:Groceries" []
    "KIWI OSLO" rfl⟩

/-- Claim C3 counterexample: a transaction that already carries two postings
(its real posting and the balancing `Expenses:Groceries` posting) gains a
third posting when the categorizer is run again with a rule matching its
description — re-running categorization is not a no-op on an already-balanced
transaction. -/
theorem c3_counterexample :
    ((categorize [(fun s => strContains "KIWI".data s.data, "Expenses:Groceries")]
        ⟨[], ⟨2024, 1, 1⟩, "*", none, "KIWI OSLO", [], [],
          [⟨"Assets:Bank", some ⟨100, "NOK"⟩⟩,
           ⟨"Expenses:Groceries", some ⟨-100, "NOK"⟩⟩]⟩ "KIWI OSLO").postings).length = 3 :=
  rfl

/-- Claim C3 (corrected): categorization is a no-op — and therefore preserves
the posting count of an already-balanced transaction — only when no rule
matches: `categorize` returns the transaction unchanged when no pattern
matches the description, and the SpareBank 1 `finalize` returns it unchanged
when no rule of any tier matches.  Neither operation inspects the posting
count, so a matching rule appends a further posting even to a two-posting
transaction. -/
theorem c3_no_match_no_op :
    (∀ (pats : List ((String → Bool) × String)) (txn : Transaction) (desc : String),
      (∀ pa ∈ pats, pa.1 desc = false) → categorize pats txn desc = txn) ∧
    (∀ (cfg : SB1Cfg) (txn : Transaction) (row : SB1Row),
      (∀ pa ∈ cfg.narrationRules, strContains pa.1.data txn.narration.data = false) →
      (∀ pa ∈ cfg.fromRules, strContains pa.1.data row.fra_konto.data = false) →
      (∀ pa ∈ cfg.toRules, strContains pa.1.data row.til_konto.data = false) →
      sb1Finalize cfg txn row = .ok txn) :=
  ⟨categorize_no_match, sb1Finalize_no_match⟩

/-- Witness for C3: with no matching rule, a two-posting transaction passes
through both operations unchanged. -/
theorem c3_witness :
    categorize [(fun s => strContains "XYZ".data s.data, "Expenses:Other")]
        ⟨[], ⟨2024, 1, 1⟩, "*", none, "KIWI OSLO", [], [],
          [⟨"Assets:Bank", some ⟨100, "NOK"⟩⟩,
           ⟨"Expenses:Groceries", some ⟨-100, "NOK"⟩⟩]⟩ "KIWI OSLO" =
      ⟨[], ⟨2024, 1, 1⟩, "*", none, "KIWI OSLO", [], [],
        [⟨"Assets:Bank", some ⟨100, "NOK"⟩⟩,
         ⟨"Expenses:Groceries", some ⟨-100, "NOK"⟩⟩]⟩ ∧
    sb1Finalize ⟨"NOK", [("XYZ", "Expenses:Other")], [], []⟩
        ⟨[], ⟨2024, 1, 1⟩, "*", none, "KIWI OSLO", [], [],
          [⟨"Assets:Bank", some ⟨100, "NOK"⟩⟩,
           ⟨"Expenses:Groceries", some ⟨-100, "NOK"⟩⟩]⟩ ⟨"", ""⟩ =
      .ok ⟨[], ⟨2024, 1, 1⟩, "*", none, "KIWI OSLO", [], [],
        [⟨"Assets:Bank", some ⟨100, "NOK"⟩⟩,
         ⟨"Expenses:Groceries", some ⟨-100, "NOK"⟩⟩]⟩ :=
  ⟨c3_no_match_no_op.1 _ _ _ (by decide),
   c3_no_match_no_op.2 _ _ _ (by decide) (by simp) (by simp)⟩

/-- Claim C5 counterexample: a transaction whose type value `"MysteryType"` is
not one of the known types and which no pattern rule matches does not keep its
original single posting — the Bank Norwegian `finalize` falls through to the
unconditional `else` branch and appends an `Expenses:Uncategorized` balancing
posting. -/
theorem c5_counterexample :
    bnFinalize ⟨"NOK", [], []⟩
        ⟨[], ⟨2024, 1, 1⟩, "*", none, "SOMETHING", [], [],
          [⟨"Assets:Bank", some ⟨100, "NOK"⟩⟩]⟩ ⟨"MysteryType"⟩ =
      .ok ⟨[], ⟨2024, 1, 1⟩, "*", none, "SOMETHING", [], [],
        [⟨"Assets:Bank", some ⟨100, "NOK"⟩⟩,
         ⟨"Expenses:Uncategorized", some ⟨-100, "NOK"⟩⟩]⟩ ∧
    ([⟨"Assets:Bank", some ⟨100, "NOK"⟩⟩,
      ⟨"Expenses:Uncategorized", some ⟨-100, "NOK"⟩⟩] : List Posting).length ≠ 1 :=
  ⟨rfl, by decide⟩

/-- Claim C5 (corrected): the type-based default tier of the Bank Norwegian
`finalize` is unconditional, not restricted to known type values — when no
narration pattern matches and the type is neither `"Innbetaling"` nor
`"CreditVoucher"`, every transaction (known type or not) receives an
`Expenses:Uncategorized` balancing posting; only the SpareBank 1 `finalize`
returns the transaction with its original single posting when no rule
matches. -/
theorem c5_default_tier :
    (∀ (cfg : BNCfg) (txn : Transaction) (row : BNRow) (pp : Posting) (ps : List Posting)
      (u : Amount), txn.postings = pp :: ps → pp.units = some u →
      (∀ pa ∈ cfg.narrationRules, strContains pa.1.data txn.narration.data = false) →
      row.type ≠ "Innbetaling" → row.type ≠ "CreditVoucher" →
      bnFinalize cfg txn row =
        .ok { txn with postings :=
          txn.postings ++ [⟨"Expenses:Uncategorized", some ⟨-u.number, cfg.currency⟩⟩] }) ∧
    (∀ (cfg : SB1Cfg) (txn : Transaction) (row : SB1Row),
      (∀ pa ∈ cfg.narrationRules, strContains pa.1.data txn.narration.data = false) →
      (∀ pa ∈ cfg.fromRules, strContains pa.1.data row.fra_konto.data = false) →
      (∀ pa ∈ cfg.toRules, strContains pa.1.data row.til_konto.data = false) →
      sb1Finalize cfg txn row = .ok txn) := by
  refine ⟨?_, sb1Finalize_no_match⟩
  intro cfg txn row pp ps u hp hu h1 hin hcv
  have hne : txn.postings.isEmpty = false := by rw [hp]; rfl
  have f1 : cfg.narrationRules.find? (fun pa => strContains pa.1.data txn.narration.data) = none := by
    rw [List.find?_eq_none]
    intro pa hpa
    simp [h1 pa hpa]
  unfold bnFinalize
  simp only [hne, Bool.false_eq_true, if_false, f1, hin, hcv, if_neg]
  unfold appendBalancing
  rw [hp]
  dsimp only
  rw [hu, ← hp]

/-- Witness for C5: a concrete unknown-type transaction gets the
`Expenses:Uncategorized` default, and the SpareBank 1 `finalize` leaves a
no-match transaction unchanged. -/
theorem c5_witness :
    bnFinalize ⟨"NOK", [("KIWI", "Expenses:Groceries")], [("F", "A1")]⟩
        ⟨[], ⟨2024, 1, 1⟩, "*", none, "ZZZ", [], [],
          [⟨"Assets:Bank", some ⟨100, "NOK"⟩⟩]⟩ ⟨"Gebyr"⟩ =
      .ok ⟨[], ⟨2024, 1, 1⟩, "*", none, "ZZZ", [], [],
        [⟨"Assets:Bank", some ⟨100, "NOK"⟩⟩,
         ⟨"Expenses:Uncategorized", some ⟨-100, "NOK"⟩⟩]⟩ ∧
    sb1Finalize ⟨"NOK", [("KIWI", "Expenses:Groceries")], [], []⟩
        ⟨[], ⟨2024, 1, 1⟩, "*", none, "ZZZ", [], [],
          [⟨"Assets:Bank", some ⟨100, "NOK"⟩⟩]⟩ ⟨"", ""⟩ =
      .ok ⟨[], ⟨2024, 1, 1⟩, "*", none, "ZZZ", [], [],
        [⟨"Assets:Bank", some ⟨100, "NOK"⟩⟩]⟩ :=
  ⟨c5_default_tier.1 _ _ _ ⟨"Assets:Bank", some ⟨100, "NOK"⟩⟩ [] ⟨100, "NOK"⟩
      rfl rfl (by decide) (by decide) (by decide),
   c5_default_tier.2 _ _ _ (by decide) (by simp) (by simp)⟩

/-- Claim C4 counterexample: a malformed middle row (its date text does not
match `%d.%m.%Y`) aborts the whole extraction with a `ValueError` — the
well-formed third row yields no transaction — whereas the same input without
the malformed row extracts both transactions. -/
theorem c4_counterexample :
    extractOld ⟨"Assets:Bank", "NOK", "*", none⟩ "f.csv"
        [["01.01.2024", "KIWI OSLO", "", "100,00", "", "", "", ""],
         ["badrow", "X", "", "1,00", "", "", "", ""],
         ["02.01.2024", "Y", "", "2,00", "", "", "", ""]] =
      .error "ValueError: strptime" ∧
    (extractOld ⟨"Assets:Bank", "NOK", "*", none⟩ "f.csv"
        [["01.01.2024", "KIWI OSLO", "", "100,00", "", "", "", ""],
         ["02.01.2024", "Y", "", "2,00", "", "", "", ""]]).map List.length = .ok 2 :=
  ⟨rfl, rfl⟩

/-- Claim C4 (corrected): the legacy `extract` loop skips only empty rows —
a row that is the empty list or whose first cell is the empty string — and
carries no row-level exception handling: a row whose date text fails to parse
raises, and the error propagates immediately, independent of the remaining
rows, so no transaction of any subsequent row is produced. -/
theorem c4_empty_skipped_malformed_aborts (cfg : OldCfg) (fp : String) :
    (∀ (i : Nat) (rest : List (List String)),
      extractRows cfg fp i ([] :: rest) = extractRows cfg fp (i + 1) rest) ∧
    (∀ (i : Nat) (cs : List String) (rest : List (List String)),
      extractRows cfg fp i (("" :: cs) :: rest) = extractRows cfg fp (i + 1) rest) ∧
    (∀ (i : Nat) (c s2 s3 s4 s5 s6 s7 s8 : String) (rest : List (List String)),
      c ≠ "" → parseDateOld (stripQuotes c.data) = none →
      extractRows cfg fp i ([c, s2, s3, s4, s5, s6, s7, s8] :: rest)
        = .error "ValueError: strptime") := by
  refine ⟨fun i rest => rfl, fun i cs rest => rfl, ?_⟩
  intro i c s2 s3 s4 s5 s6 s7 s8 rest hc hd
  unfold extractRows
  dsimp only
  rw [if_neg hc]
  unfold buildTxnOld
  dsimp only
  rw [hd]

/-- Witness for C4: the malformed-row clause applied to a concrete row list
with a well-formed row after the bad one; the whole extraction errors. -/
theorem c4_witness :
    extractRows ⟨"Assets:Bank", "NOK", "*", none⟩ "f.csv" 1
        [["badrow", "X", "", "1,00", "", "", "", ""],
         ["02.01.2024", "Y", "", "2,00", "", "", "", ""]] =
      .error "ValueError: strptime" :=
  (c4_empty_skipped_malformed_aborts ⟨"Assets:Bank", "NOK", "*", none⟩ "f.csv").2.2
    1 "badrow" "X" "" "1,00" "" "" "" ""
    [["02.01.2024", "Y", "", "2,00", "", "", "", ""]] (by decide) rfl

/-- Claim C8 counterexample: a document in which both the end date and a
balance are located (`_extract_end_date` and `_extract_final_balance` both
succeed, and the balance text is truthy) can still produce zero Balance
directives: the text `1,2,3` normalises to `1.2.3`, `D` raises, and the
handler returns the empty list — so "exactly one when both are located" fails
as stated. -/
theorem c8_counterexample :
    extractEndDate "perioden 01.01.2024 - 31.01.2024\nSaldo kr 1,2,3".data
        = some ⟨2024, 1, 31⟩ ∧
    extractFinalBalance "perioden 01.01.2024 - 31.01.2024\nSaldo kr 1,2,3".data
        = some "1.2.3".data ∧
    balanceFromText ⟨"Assets:Bank", "NOK"⟩ "f.pdf"
        "perioden 01.01.2024 - 31.01.2024\nSaldo kr 1,2,3".data = [] :=
  ⟨rfl, rfl, rfl⟩

/-- Claim C8 (corrected): the extraction produces at most one Balance
directive; it produces exactly one — dated the end date plus one day, with a
null tolerance — when the end date is located and the final balance is located
as a non-empty text that parses as a decimal number; and it produces the empty
list, not an exception, whenever the date or the balance is missing (and also
when the located balance text fails to parse). -/
theorem c8_at_most_one_balance (cfg : BalCfg) (fp : String) (text : List Char) :
    (balanceFromText cfg fp text).length ≤ 1 ∧
    (∀ (d : Date) (b : List Char) (q : ℚ),
      extractEndDate text = some d → extractFinalBalance text = some b →
      b ≠ [] → pyD b = some q →
      balanceFromText cfg fp text =
        [⟨[("filename", fp), ("lineno", "1")], nextDay d, cfg.accountName,
          ⟨q, cfg.currency⟩, none, none⟩]) ∧
    ((extractEndDate text = none ∨ extractFinalBalance text = none) →
      balanceFromText cfg fp text = []) := by
  refine ⟨?_, ?_, ?_⟩
  · unfold balanceFromText
    cases extractEndDate text with
    | none => simp
    | some d =>
      cases extractFinalBalance text with
      | none => simp
      | some b =>
        dsimp only
        by_cases hb : b ≠ []
        · rw [if_pos hb]
          cases pyD b with
          | none => simp
          | some q => simp
        · rw [if_neg hb]
          simp
  · intro d b q hd hb hbn hq
    unfold balanceFromText
    rw [hd, hb]
    dsimp only
    rw [if_pos hbn, hq]
  · intro h
    unfold balanceFromText
    rcases h with h | h
    · rw [h]
    · rw [h]
      cases extractEndDate text <;> rfl

/-- Witness for C8: a well-formed statement text yields exactly the one
Balance directive, dated 2024-02-01 (the end date 2024-01-31 plus one day)
with a null tolerance. -/
theorem c8_witness :
    balanceFromText ⟨"Assets:Bank", "NOK"⟩ "f.pdf"
        "perioden 01.01.2024 - 31.01.2024\nSaldoiDeresfavør 1.234,56".data =
      [⟨[("filename", "f.pdf"), ("lineno", "1")], ⟨2024, 2, 1⟩, "Assets:Bank",
        ⟨mkRat 123456 100, "NOK"⟩, none, none⟩] :=
  (c8_at_most_one_balance ⟨"Assets:Bank", "NOK"⟩ "f.pdf"
      "perioden 01.01.2024 - 31.01.2024\nSaldoiDeresfavør 1.234,56".data).2.1
    ⟨2024, 1, 31⟩ "1234.56".data (mkRat 123456 100) rfl rfl (by decide) rfl

theorem c2d_safe {c : Char} (h : c.isDigit ∨ c = ',') : (c2d c).isDigit ∨ c2d c = '.' := by
  rcases h with h | h
  · left
    have hne : c ≠ ',' := by
      intro he
      rw [he] at h
      exact absurd h (by decide)
    rw [c2d, if_neg hne]
    exact h
  · right
    rw [c2d, if_pos h]

theorem c2d_ne_minus {c : Char} (h : c.isDigit ∨ c = ',') : c2d c ≠ '-' := by
  rcases c2d_safe h with h2 | h2
  · intro he
    rw [he] at h2
    exact absurd h2 (by decide)
  · rw [h2]
    decide

theorem c2d_ne_plus {c : Char} (h : c.isDigit ∨ c = ',') : c2d c ≠ '+' := by
  rcases c2d_safe h with h2 | h2
  · intro he
    rw [he] at h2
    exact absurd h2 (by decide)
  · rw [h2]
    decide

theorem c2d_ne_comma {c : Char} (h : c.isDigit ∨ c = ',') : c2d c ≠ ',' := by
  rcases c2d_safe h with h2 | h2
  · intro he
    rw [he] at h2
    exact absurd h2 (by decide)
  · rw [h2]
    decide

theorem parseSigned_cons_ne {c : Char} {cs : List Char} (h1 : c ≠ '-') (h2 : c ≠ '+') :
    parseSigned (c :: cs) = parseCore (c :: cs) := by
  unfold parseSigned
  dsimp only
  rw [if_neg h1, if_neg h2]

theorem parseSigned_neg (cs : List Char) :
    parseSigned ('-' :: cs) = (parseCore cs).map (fun q => -q) := by
  unfold parseSigned
  dsimp only
  rw [if_pos rfl]

theorem dropWhile_quote {cs : List Char} (h : ∀ c ∈ cs, c ≠ '"') :
    cs.dropWhile (· == '"') = cs := by
  cases cs with
  | nil => rfl
  | cons a l =>
    rw [List.dropWhile_cons]
    have ha : (a == '"') = false := by
      rw [beq_eq_false_iff_ne]
      exact h a (List.mem_cons_self a l)
    simp [ha]

theorem stripQuotes_eq_self {cs : List Char} (h : ∀ c ∈ cs, c ≠ '"') :
    stripQuotes cs = cs := by
  unfold stripQuotes
  rw [dropWhile_quote h]
  rw [dropWhile_quote (fun c hc => h c (List.mem_reverse.mp hc))]
  exact List.reverse_reverse cs

/-- Claim C6 counterexample: for a row with an empty credit column and the
unsigned debit text `"500,00"`, the csvbase `CreditOrDebit` column (minus
signs stripped by `subs`, then negated) yields `-500`, while the debit value
taken verbatim with its stored sign — as the legacy `_parse_amount` computes
it — is `+500`. -/
theorem c6_counterexample :
    creditOrDebit [] "500,00".data = some (-(500 : ℚ)) ∧
    parseAmountOld "500,00".data = some (500 : ℚ) ∧
    some (-(500 : ℚ)) ≠ some (500 : ℚ) :=
  ⟨rfl, rfl, by decide⟩

/-- Claim C6 (corrected): in the legacy importer the effective amount is the
parsed credit when non-zero and otherwise the parsed debit verbatim; in the
csvbase importer the credit cell is kept as-is when non-empty, and the debit
cell is parsed with its minus signs stripped and then negated — which equals
the verbatim signed value exactly when the stored debit text carries a leading
minus sign, and is the negation of the verbatim value for unsigned debit
text. -/
theorem c6_effective_amount :
    (∀ inn ut : ℚ, inn ≠ 0 → effectiveAmountOld inn ut = inn) ∧
    (∀ ut : ℚ, effectiveAmountOld 0 ut = ut) ∧
    (∀ credit debit : List Char, credit ≠ [] →
      creditOrDebit credit debit = pyD (applySubs credit)) ∧
    (∀ r : List Char, r ≠ [] → (∀ c ∈ r, c.isDigit ∨ c = ',') →
      creditOrDebit [] ('-' :: r) = parseAmountOld ('-' :: r)) := by
  refine ⟨?_, ?_, ?_, ?_⟩
  · intro inn ut h
    rw [effectiveAmountOld, if_pos h]
  · intro ut
    rw [effectiveAmountOld, if_neg (by simp)]
  · intro credit debit h
    rw [creditOrDebit, if_pos h]
  · intro r hr hch
    have hmapc : ∀ x ∈ r.map c2d, x ≠ ',' ∧ x ≠ '-' ∧ x ≠ '+' := by
      intro x hx
      obtain ⟨y, hy, rfl⟩ := List.mem_map.mp hx
      exact ⟨c2d_ne_comma (hch y hy), c2d_ne_minus (hch y hy), c2d_ne_plus (hch y hy)⟩
    have hfiltm : (r.map c2d).filter (· != '-') = r.map c2d :=
      List.filter_eq_self.mpr (fun x hx => by rw [bne_iff_ne]; exact (hmapc x hx).2.1)
    have hfiltc : (r.map c2d).filter (· != ',') = r.map c2d :=
      List.filter_eq_self.mpr (fun x hx => by rw [bne_iff_ne]; exact (hmapc x hx).1)
    have h1 : applySubs ('-' :: r) = r.map c2d := by
      rw [applySubs, List.map_cons]
      rw [show c2d '-' = '-' from rfl, List.filter_cons]
      rw [show (('-' : Char) != '-') = false from rfl]
      simp only [Bool.false_eq_true, if_false]
      exact hfiltm
    obtain ⟨c, r', rfl⟩ := List.exists_cons_of_ne_nil hr
    have hhead := hmapc (c2d c) (by rw [List.map_cons]; exact List.mem_cons_self _ _)
    have hmapne : ((c :: r').map c2d).isEmpty = false := by
      rw [List.map_cons]
      rfl
    have lhs_eq : creditOrDebit [] ('-' :: c :: r')
        = (parseCore ((c :: r').map c2d)).map (fun q => -q) := by
      rw [creditOrDebit, if_neg (by simp), if_pos (by simp), h1]
      rw [pyD, if_neg (by rw [hmapne]; simp), hfiltc]
      rw [List.map_cons, parseSigned_cons_ne hhead.2.1 hhead.2.2, ← List.map_cons]
    have hnodot : (c :: r').filter (· != '.') = c :: r' :=
      List.filter_eq_self.mpr (fun x hx => by
        rw [bne_iff_ne]
        rcases hch x hx with h | h
        · intro he
          rw [he] at h
          exact absurd h (by decide)
        · rw [h]
          decide)
    have hnoquote : ∀ x ∈ '-' :: c :: r', x ≠ '"' := by
      intro x hx
      rcases List.mem_cons.mp hx with rfl | hx'
      · decide
      · rcases hch x hx' with h | h
        · intro he
          rw [he] at h
          exact absurd h (by decide)
        · rw [h]
          decide
    have rhs_eq : parseAmountOld ('-' :: c :: r')
        = (parseCore ((c :: r').map c2d)).map (fun q => -q) := by
      rw [parseAmountOld, if_neg (by simp), stripQuotes_eq_self hnoquote]
      rw [List.filter_cons, show (('-' : Char) != '.') = true from rfl, if_pos rfl, hnodot]
      rw [List.map_cons, show c2d '-' = '-' from rfl]
      rw [pyD, if_neg (by simp)]
      rw [List.filter_cons, show (('-' : Char) != ',') = true from rfl, if_pos rfl, hfiltc]
      exact parseSigned_neg _
    rw [lhs_eq, rhs_eq]

/-- Witness for C6: the signed-debit clause at the concrete debit text
`-500,00` — negation after minus-stripping agrees with the verbatim parse —
together with the non-zero-credit clause of the legacy importer. -/
theorem c6_witness :
    creditOrDebit [] ('-' :: "500,00".data) = parseAmountOld ('-' :: "500,00".data) ∧
    effectiveAmountOld 100 7 = 100 :=
  ⟨c6_effective_amount.2.2.2 "500,00".data (by decide) (by decide),
   c6_effective_amount.1 100 7 (by decide)⟩

end BankNO
